import Mathlib

/-!
# Verification of the ferrum Option/Result library

Shallow embedding of the TypeScript source files `src/option.ts`,
`src/result.ts` and `src/match.ts`.

Conventions of the embedding:
* A JavaScript `throw` is modelled with `Except JSError`: a method that can
  throw returns `Except JSError α`, a `throw new Error(msg)` is
  `Except.error ⟨msg⟩`, and a normal `return v` is `Except.ok v` (`pure v`).
* Methods that cannot throw are plain total functions.
* JavaScript template interpolation of a value of generic type `E`
  (as in `` `Called unwrap on an Err value: ${this.error}` ``) implicitly
  stringifies the value; the Lean analogue is a `ToString` instance.
* For `Option.fromNullable` the value domain must contain the nullish
  sentinels, so it is embedded over a small universe `JSValue` of
  JavaScript values; the loose comparison `value != null` of the source is
  true exactly when the value is neither `null` nor `undefined`
  (ECMA-262 loose equality with `null`).
* Caller-supplied callbacks that the spec constrains observationally
  (laziness of `unwrapOrElse`/`orElse`) are embedded a second time in a
  monadic form, generic over a monad `m`, translating `return this.value`
  to `pure` and a call `f()` to the effectful computation `f` itself.
-/

namespace Ferrum

/-- A JavaScript `Error` object: the library only ever constructs
`new Error(message)`, so the embedding keeps just the message. -/
structure JSError where
  message : String
  deriving Repr, DecidableEq

/-- A small universe of JavaScript values, sufficient for
`Option.fromNullable` (which must distinguish the nullish sentinels
`null`/`undefined` from falsy values such as `0`, `false`, `""`) and for
`Result.fromThrowable` (which distinguishes `Error` instances from other
thrown values). -/
inductive JSValue where
  | vNull
  | vUndefined
  | vBool (b : Bool)
  | vNum (n : Int)
  | vStr (s : String)
  | vErr (e : JSError)
  deriving Repr, DecidableEq

/-- JavaScript `String(x)` on the values of `JSValue`. -/
def jsToString : JSValue → String
  | .vNull => "null"
  | .vUndefined => "undefined"
  | .vBool b => if b then "true" else "false"
  | .vNum n => toString n
  | .vStr s => s
  | .vErr e => "Error: " ++ e.message

/-- ECMA-262 loose equality `x != null`: false exactly for `null` and
`undefined` (the source's guard in `Option.fromNullable`). -/
def looseNeqNull : JSValue → Bool
  | .vNull => false
  | .vUndefined => false
  | _ => true

/-- `Option<T>` from `src/option.ts`: the closed two-variant union with
concrete classes `SomeOption`/`NoneOption`, built by the factories
`Some`/`None`. -/
inductive Option (α : Type u) where
  | Some (value : α)
  | None
  deriving Repr, DecidableEq

/-- Handler pair for `Option.match` (`{ Some: (value: T) => U; None: () => U }`). -/
structure OptionPatterns (α : Type u) (β : Type v) where
  Some : α → β
  None : Unit → β

/-- `isSome()`: `SomeOption` returns `true`, `NoneOption` returns `false`. -/
def Option.isSome : Option α → Bool
  | .Some _ => true
  | .None => false

/-- `isNone()`: `SomeOption` returns `false`, `NoneOption` returns `true`. -/
def Option.isNone : Option α → Bool
  | .Some _ => false
  | .None => true

/-- `unwrap()`: `SomeOption` returns `this.value`; `NoneOption` throws
`new Error('Called unwrap on a None value')`. -/
def Option.unwrap : Option α → Except JSError α
  | .Some v => pure v
  | .None => .error ⟨"Called unwrap on a None value"⟩

/-- `expect(msg)`: `SomeOption` returns `this.value`; `NoneOption` throws
`new Error(msg)`. -/
def Option.expect : Option α → String → Except JSError α
  | .Some v, _ => pure v
  | .None, msg => .error ⟨msg⟩

/-- `unwrapOr(defaultValue)`. -/
def Option.unwrapOr : Option α → α → α
  | .Some v, _ => v
  | .None, defaultValue => defaultValue

/-- `unwrapOrElse(f)`: `SomeOption` returns `this.value` (ignoring `f`);
`NoneOption` returns `f()`. -/
def Option.unwrapOrElse : Option α → (Unit → α) → α
  | .Some v, _ => v
  | .None, f => f ()

/-- `map(f)`: `SomeOption` returns `Some(f(this.value))`; `NoneOption`
returns `None()`. -/
def Option.map (f : α → β) : Option α → Option β
  | .Some v => .Some (f v)
  | .None => .None

/-- `flatMap(f)`: `SomeOption` returns `f(this.value)` directly;
`NoneOption` returns `None()`. -/
def Option.flatMap (f : α → Option β) : Option α → Option β
  | .Some v => f v
  | .None => .None

/-- `orElse(f)`: `SomeOption` returns `this`; `NoneOption` returns `f()`. -/
def Option.orElse : Option α → (Unit → Option α) → Option α
  | .Some v, _ => .Some v
  | .None, f => f ()

/-- `zip(other)` — `SomeOption` evaluates
`other.isSome() ? Some([this.value, other.unwrap()]) : None()`, so the
internal `unwrap()` call sits in the throwing monad; `NoneOption` returns
`None()` without touching `other`. -/
def Option.zip (o : Option α) (other : Option β) : Except JSError (Option (α × β)) :=
  match o with
  | .Some v =>
      bif other.isSome then (other.unwrap).map (fun u => .Some (v, u))
      else pure .None
  | .None => pure .None

/-- `match(patterns)`: `SomeOption` calls `patterns.Some(this.value)`;
`NoneOption` calls `patterns.None()`. -/
def Option.matchWith : Option α → OptionPatterns α β → β
  | .Some v, patterns => patterns.Some v
  | .None, patterns => patterns.None ()

/-- `Option.fromNullable(value)`:
`value != null ? Some(value) : None<T>()`, over the `JSValue` universe. -/
def Option.fromNullable (value : JSValue) : Option JSValue :=
  bif looseNeqNull value then .Some value else .None

/-- Monadic embedding of `unwrapOrElse(f)` with an effectful callback:
`return this.value` becomes `pure`; the `NoneOption` body `return f()`
runs the computation `f`. -/
def Option.unwrapOrElseM {m : Type u → Type v} [Monad m] : Option α → m α → m α
  | .Some v, _ => pure v
  | .None, f => f

/-- Monadic embedding of `orElse(f)` with an effectful callback:
`SomeOption` returns `this` without running `f`; `NoneOption` runs `f`. -/
def Option.orElseM {m : Type u → Type v} [Monad m] : Option α → m (Option α) → m (Option α)
  | .Some v, _ => pure (.Some v)
  | .None, f => f

/-- The spec's name for the fault raised by `unwrap` on an absent option:
the source throws `new Error('Called unwrap on a None value')`. -/
def EmptyValueError : JSError :=
  ⟨"Called unwrap on a None value"⟩

/-- `Result<T, E>` from `src/result.ts`: the closed two-variant union with
concrete classes `OkResult`/`ErrResult`, built by the factories
`Ok`/`Fail`. -/
inductive Result (α : Type u) (ε : Type v) where
  | Ok (value : α)
  | Fail (error : ε)
  deriving Repr, DecidableEq

/-- Handler pair for `Result.match`
(`{ Ok: (value: T) => U; Err: (error: E) => U }`). -/
structure ResultPatterns (α : Type u) (ε : Type v) (β : Type w) where
  Ok : α → β
  Err : ε → β

/-- `isOk()`. -/
def Result.isOk : Result α ε → Bool
  | .Ok _ => true
  | .Fail _ => false

/-- `isErr()`. -/
def Result.isErr : Result α ε → Bool
  | .Ok _ => false
  | .Fail _ => true

/-- `unwrap()`: `OkResult` returns `this.value`; `ErrResult` throws
`` new Error(`Called unwrap on an Err value: ${this.error}`) `` — the
template interpolation stringifies the error payload, modelled by
`ToString`. -/
def Result.unwrap [ToString ε] : Result α ε → Except JSError α
  | .Ok v => pure v
  | .Fail e => .error ⟨"Called unwrap on an Err value: " ++ toString e⟩

/-- `unwrapErr()`: `OkResult` throws
`new Error('Called unwrapErr on an Ok value')`; `ErrResult` returns
`this.error`. -/
def Result.unwrapErr : Result α ε → Except JSError ε
  | .Ok _ => .error ⟨"Called unwrapErr on an Ok value"⟩
  | .Fail e => pure e

/-- `expect(msg)`: `OkResult` returns `this.value`; `ErrResult` throws
`new Error(msg)`. -/
def Result.expect : Result α ε → String → Except JSError α
  | .Ok v, _ => pure v
  | .Fail _, msg => .error ⟨msg⟩

/-- `expectErr(msg)`: `OkResult` throws `new Error(msg)`; `ErrResult`
returns `this.error`. -/
def Result.expectErr : Result α ε → String → Except JSError ε
  | .Ok _, msg => .error ⟨msg⟩
  | .Fail e, _ => pure e

/-- `unwrapOr(defaultValue)`. -/
def Result.unwrapOr : Result α ε → α → α
  | .Ok v, _ => v
  | .Fail _, defaultValue => defaultValue

/-- `unwrapOrElse(f)`: `OkResult` returns `this.value` (ignoring `f`);
`ErrResult` returns `f(this.error)`. -/
def Result.unwrapOrElse : Result α ε → (ε → α) → α
  | .Ok v, _ => v
  | .Fail e, f => f e

/-- `map(f)`: `OkResult` returns `Ok(f(this.value))`; `ErrResult` returns
`Fail(this.error)`. -/
def Result.map (f : α → β) : Result α ε → Result β ε
  | .Ok v => .Ok (f v)
  | .Fail e => .Fail e

/-- `mapErr(f)`: `OkResult` returns `Ok(this.value)`; `ErrResult` returns
`Fail(f(this.error))`. -/
def Result.mapErr (f : ε → φ) : Result α ε → Result α φ
  | .Ok v => .Ok v
  | .Fail e => .Fail (f e)

/-- `flatMap(f)`: `OkResult` returns `f(this.value)` directly; `ErrResult`
returns `Fail(this.error)`. -/
def Result.flatMap (f : α → Result β ε) : Result α ε → Result β ε
  | .Ok v => f v
  | .Fail e => .Fail e

/-- `orElse(f)`: `OkResult` returns `Ok(this.value)`; `ErrResult` returns
`f(this.error)`. -/
def Result.orElse : Result α ε → (ε → Result α φ) → Result α φ
  | .Ok v, _ => .Ok v
  | .Fail e, f => f e

/-- `match(patterns)`: `OkResult` calls `patterns.Ok(this.value)`;
`ErrResult` calls `patterns.Err(this.error)`. -/
def Result.matchWith : Result α ε → ResultPatterns α ε β → β
  | .Ok v, patterns => patterns.Ok v
  | .Fail e, patterns => patterns.Err e

/-- Monadic embedding of `unwrapOrElse(f)` with an effectful callback:
`OkResult` returns `this.value` without running `f`; `ErrResult` runs
`f(this.error)`. -/
def Result.unwrapOrElseM {m : Type u → Type v} [Monad m] : Result α ε → (ε → m α) → m α
  | .Ok v, _ => pure v
  | .Fail e, f => f e

/-- Monadic embedding of `orElse(f)` with an effectful callback:
`OkResult` returns `Ok(this.value)` without running `f`; `ErrResult` runs
`f(this.error)`. -/
def Result.orElseM {α : Type u} {ε : Type v} {φ : Type w}
    {m : Type (max u w) → Type x} [Monad m] :
    Result α ε → (ε → m (Result α φ)) → m (Result α φ)
  | .Ok v, _ => pure (.Ok v)
  | .Fail e, f => f e

/-- `Result.fromThrowable(f)`: runs `f`, returning `Ok(f())` on normal
return; a caught fault `e` yields
`Fail(e instanceof Error ? e : new Error(String(e)))`. A callback that may
throw any JavaScript value is `Unit → Except JSValue α`. The `try`/`catch`
makes the method itself total: it returns a plain `Result`. -/
def Result.fromThrowable (f : Unit → Except JSValue α) : Result α JSError :=
  match f () with
  | .ok v => .Ok v
  | .error e =>
      .Fail (match e with
        | .vErr err => err
        | other => ⟨jsToString other⟩)

/-- The loop body of `Result.combine`: `values` is the accumulator array,
and each iteration runs
`if (result.isErr()) return Fail(result.unwrapErr()); values.push(result.unwrap());`
with the internal `unwrapErr`/`unwrap` calls in the throwing monad. -/
def Result.combineGo [ToString ε] (values : List α) :
    List (Result α ε) → Except JSError (Result (List α) ε)
  | [] => pure (.Ok values)
  | result :: rest =>
      bif result.isErr then (result.unwrapErr).map .Fail
      else (result.unwrap).bind fun v => Result.combineGo (values ++ [v]) rest

/-- `Result.combine(results)`: starts the loop with an empty `values`
array. -/
def Result.combine [ToString ε] (results : List (Result α ε)) :
    Except JSError (Result (List α) ε) :=
  Result.combineGo [] results

/-- The spec's name for the fault raised by `unwrap` on a failure: the
source throws `` new Error(`Called unwrap on an Err value: ${this.error}`) ``,
so the message embeds the string form of the payload. -/
def UnwrapOnFailureError (payload : String) : JSError :=
  ⟨"Called unwrap on an Err value: " ++ payload⟩

/-- The spec's name for the fault raised by `unwrapErr` on a success: the
source throws `new Error('Called unwrapErr on an Ok value')`. -/
def UnwrapErrOnSuccessError : JSError :=
  ⟨"Called unwrapErr on an Ok value"⟩

/-- The standalone `match` of `src/match.ts`, at its `Option` overload:
`return value.match(patterns)`. (`match` is a Lean keyword, hence the
name `matchStandaloneOption`.) -/
def matchStandaloneOption (value : Option α) (patterns : OptionPatterns α β) : β :=
  value.matchWith patterns

/-- The standalone `match` of `src/match.ts`, at its `Result` overload:
`return value.match(patterns)`. -/
def matchStandaloneResult (value : Result α ε) (patterns : ResultPatterns α ε β) : β :=
  value.matchWith patterns

/-- An effectful thunk in the call-counting state monad: it produces `x`
and increments the count of calls made so far, so a final count of `k`
means the callback was invoked exactly `k` times. -/
def countingThunk (x : α) : StateM Nat α :=
  fun n => (x, n + 1)

/-! ## Theorems -/

/-- Pushing an all-`Ok` prefix of the input through the `combine` loop
only extends the accumulator. -/
theorem Result.combineGo_ok_prefix {α : Type u} {ε : Type v} [ToString ε] (os : List α) :
    ∀ (values : List α) (l : List (Result α ε)),
      Result.combineGo values (os.map .Ok ++ l) = Result.combineGo (values ++ os) l := by
  induction os with
  | nil => intro values l; simp
  | cons o os ih =>
      intro values l
      have h1 : Result.combineGo values ((.Ok o : Result α ε) :: (os.map .Ok ++ l)) =
          Result.combineGo (values ++ [o]) (os.map .Ok ++ l) := rfl
      simp only [List.map_cons, List.cons_append]
      rw [h1, ih]
      simp

/-- The `combine` loop never reaches the throwing branches of the
internal `unwrap`/`unwrapErr` calls. -/
theorem Result.combineGo_total {α : Type u} {ε : Type v} [ToString ε] :
    ∀ (l : List (Result α ε)) (values : List α),
      ∃ res, Result.combineGo values l = .ok res := by
  intro l
  induction l with
  | nil => intro values; exact ⟨.Ok values, rfl⟩
  | cons r rest ih =>
      intro values
      cases r with
      | Ok v => exact ih (values ++ [v])
      | Fail e => exact ⟨.Fail e, rfl⟩

/-- C1: `unwrap()` returns the payload of a present option and fails with
`EmptyValueError` on an absent one; `expect(msg)` returns the payload of a
present option and fails on an absent one with exactly the caller-supplied
message. -/
theorem option_unwrap_expect_correct {α : Type u} :
    (∀ v : α, Option.unwrap (.Some v) = .ok v) ∧
    (Option.unwrap (.None : Option α) = .error EmptyValueError) ∧
    (∀ (v : α) (msg : String), Option.expect (.Some v) msg = .ok v) ∧
    (∀ msg : String, Option.expect (.None : Option α) msg = .error ⟨msg⟩) :=
  ⟨fun _ => rfl, rfl, fun _ _ => rfl, fun _ => rfl⟩

/-- C2: `Result.unwrap()` returns the success payload on `Ok` and fails on
`Fail` with `UnwrapOnFailureError` whose message embeds the string form of
the failure payload; `unwrapErr()` returns the failure payload on `Fail`
and fails with `UnwrapErrOnSuccessError` on `Ok`. -/
theorem result_unwrap_unwrapErr_correct {α : Type u} {ε : Type v} [ToString ε] :
    (∀ v : α, Result.unwrap (.Ok v : Result α ε) = .ok v) ∧
    (∀ e : ε, Result.unwrap (.Fail e : Result α ε) =
      .error (UnwrapOnFailureError (toString e))) ∧
    (∀ e : ε, Result.unwrapErr (.Fail e : Result α ε) = .ok e) ∧
    (∀ v : α, Result.unwrapErr (.Ok v : Result α ε) = .error UnwrapErrOnSuccessError) :=
  ⟨fun _ => rfl, fun _ => rfl, fun _ => rfl, fun _ => rfl⟩

/-- C3: `Option.fromNullable` is absent exactly on the two nullish
sentinels `null` and `undefined`, and present with the original value on
everything else — in particular on the falsy values `0`, `false` and the
empty string. -/
theorem fromNullable_correct :
    (∀ v : JSValue, Option.fromNullable v =
      if v = .vNull ∨ v = .vUndefined then .None else .Some v) ∧
    Option.fromNullable (.vNum 0) = .Some (.vNum 0) ∧
    Option.fromNullable (.vBool false) = .Some (.vBool false) ∧
    Option.fromNullable (.vStr "") = .Some (.vStr "") := by
  refine ⟨fun v => ?_, rfl, rfl, rfl⟩
  cases v <;> simp [Option.fromNullable, looseNeqNull]

/-- C4: `Result.combine` returns `Success []` on the empty list,
`Success` of the ordered payloads when every element is a success, and —
for an input made of an all-success prefix followed by a first failure —
that first failure, whatever comes after it (short-circuit: the value is
independent of the elements past the first failure). -/
theorem combine_correct {α : Type u} {ε : Type v} [ToString ε] :
    (Result.combine ([] : List (Result α ε)) = .ok (.Ok [])) ∧
    (∀ os : List α, Result.combine (os.map .Ok : List (Result α ε)) = .ok (.Ok os)) ∧
    (∀ (os : List α) (e : ε) (rest : List (Result α ε)),
      Result.combine (os.map .Ok ++ .Fail e :: rest) = .ok (.Fail e)) := by
  refine ⟨rfl, fun os => ?_, fun os e rest => ?_⟩
  · rw [Result.combine]
    have h := Result.combineGo_ok_prefix os [] ([] : List (Result α ε))
    rw [List.append_nil] at h
    rw [h]
    rfl
  · rw [Result.combine, Result.combineGo_ok_prefix]
    rfl

/-- C5: `Result.fromThrowable` yields `Ok(v)` when the callback returns
`v` normally; when the callback throws, it yields `Fail` of the thrown
value itself if that value is an `Error`, and otherwise `Fail` of a fresh
`Error` whose message is the `String(...)` form of the thrown value. The
`try`/`catch` makes `fromThrowable` itself total (its embedding returns a
plain `Result`, never an exception). -/
theorem fromThrowable_correct {α : Type u} :
    (∀ (f : Unit → Except JSValue α) (v : α),
      f () = .ok v → Result.fromThrowable f = .Ok v) ∧
    (∀ (f : Unit → Except JSValue α) (err : JSError),
      f () = .error (.vErr err) → Result.fromThrowable f = .Fail err) ∧
    (∀ (f : Unit → Except JSValue α) (w : JSValue),
      f () = .error w → (∀ e, w ≠ .vErr e) →
      Result.fromThrowable f = .Fail ⟨jsToString w⟩) := by
  refine ⟨fun f v h => ?_, fun f err h => ?_, fun f w h hw => ?_⟩
  · rw [Result.fromThrowable, h]
  · rw [Result.fromThrowable, h]
  · rw [Result.fromThrowable, h]
    cases w with
    | vErr e => exact absurd rfl (hw e)
    | vNull => rfl
    | vUndefined => rfl
    | vBool b => rfl
    | vNum n => rfl
    | vStr s => rfl

/-- Witness for C5 at the spec's three examples: a normal return of `42`,
a thrown `Error('boom')`, and a thrown plain string `'plain'`. -/
theorem fromThrowable_correct_witness :
    Result.fromThrowable (fun _ => (.ok 42 : Except JSValue Int)) = .Ok 42 ∧
    Result.fromThrowable (fun _ => (.error (.vErr ⟨"boom"⟩) : Except JSValue Int)) =
      .Fail ⟨"boom"⟩ ∧
    Result.fromThrowable (fun _ => (.error (.vStr "plain") : Except JSValue Int)) =
      .Fail ⟨"plain"⟩ :=
  ⟨fromThrowable_correct.1 _ 42 rfl,
   fromThrowable_correct.2.1 _ ⟨"boom"⟩ rfl,
   fromThrowable_correct.2.2 _ (.vStr "plain") rfl (fun _ h => nomatch h)⟩

/-- C6: `Option.map` satisfies the functor laws up to structural
equality: mapping the identity gives back an equal option, and mapping
`f` then `g` equals mapping their composition. -/
theorem option_map_functor_laws {α β γ : Type u} :
    (∀ o : Option α, o.map id = o) ∧
    (∀ (o : Option α) (f : α → β) (g : β → γ),
      (o.map f).map g = o.map (fun x => g (f x))) := by
  constructor
  · intro o; cases o <;> rfl
  · intro o f g; cases o <;> rfl

/-- C7: the standalone `match` function returns exactly what the
container's own `match` method returns, for both `Option` and `Result`
(it is a pure delegation). -/
theorem match_standalone_agrees {α : Type u} {ε : Type v} {β : Type w} :
    (∀ (o : Option α) (patterns : OptionPatterns α β),
      matchStandaloneOption o patterns = o.matchWith patterns) ∧
    (∀ (r : Result α ε) (patterns : ResultPatterns α ε β),
      matchStandaloneResult r patterns = r.matchWith patterns) :=
  ⟨fun _ _ => rfl, fun _ _ => rfl⟩

/-- C8: `map` leaves a failure untouched — the result is a failure with
exactly the same error payload — and `mapErr` leaves a success untouched —
the result is a success with exactly the same value payload. -/
theorem map_mapErr_frame {α β : Type u} {ε φ : Type v} :
    (∀ (e : ε) (f : α → β), (Result.Fail e : Result α ε).map f = .Fail e) ∧
    (∀ (v : α) (g : ε → φ), (Result.Ok v : Result α ε).mapErr g = .Ok v) :=
  ⟨fun _ _ => rfl, fun _ _ => rfl⟩

/-- C9: `unwrapOrElse`/`orElse` are lazy. On a present option / success
result the callback computation is never run and the outcome is `pure` of
the existing payload for every callback and every monad of effects; with
a call-counting callback, the count is `0` on the present/success branch
and exactly `1` on the absent/failure branch. -/
theorem unwrapOrElse_orElse_lazy {α ε : Type} {m : Type → Type} [Monad m] :
    (∀ (v : α) (f : m α), Option.unwrapOrElseM (.Some v) f = pure v) ∧
    (∀ (v : α) (f : m (Option α)), Option.orElseM (.Some v) f = pure (.Some v)) ∧
    (∀ (v : α) (f : ε → m α), Result.unwrapOrElseM (.Ok v) f = pure v) ∧
    (∀ (v : α) (f : ε → m (Result α ε)), Result.orElseM (.Ok v) f = pure (.Ok v)) ∧
    (∀ v x : α, (Option.unwrapOrElseM (.Some v) (countingThunk x)).run 0 = (v, 0)) ∧
    (∀ x : α, (Option.unwrapOrElseM (.None : Option α) (countingThunk x)).run 0 = (x, 1)) ∧
    (∀ (v : α) (o : Option α),
      (Option.orElseM (.Some v) (countingThunk o)).run 0 = (.Some v, 0)) ∧
    (∀ o : Option α, (Option.orElseM (.None : Option α) (countingThunk o)).run 0 = (o, 1)) ∧
    (∀ v x : α,
      (Result.unwrapOrElseM (.Ok v : Result α ε) (fun _ => countingThunk x)).run 0 = (v, 0)) ∧
    (∀ (e : ε) (x : α),
      (Result.unwrapOrElseM (.Fail e : Result α ε) (fun _ => countingThunk x)).run 0 = (x, 1)) ∧
    (∀ (v : α) (r : Result α ε),
      (Result.orElseM (.Ok v : Result α ε) (fun _ => countingThunk r)).run 0 = (.Ok v, 0)) ∧
    (∀ (e : ε) (r : Result α ε),
      (Result.orElseM (.Fail e : Result α ε) (fun _ => countingThunk r)).run 0 = (r, 1)) :=
  ⟨fun _ _ => rfl, fun _ _ => rfl, fun _ _ => rfl, fun _ _ => rfl,
   fun _ _ => rfl, fun _ => rfl, fun _ _ => rfl, fun _ => rfl,
   fun _ _ => rfl, fun _ _ => rfl, fun _ _ => rfl, fun _ _ => rfl⟩

/-- C10: `zip` and `combine` are total although they internally call the
throwing extractors `unwrap`/`unwrapErr`: the guards (`other.isSome()` in
`zip`, `result.isErr()` in `combine`) confirm the variant first, so for
every input both return normally (`Except.ok`) and the throwing branches
of the internal calls are unreachable. -/
theorem zip_combine_total {α : Type u} {β : Type u} {ε : Type v} [ToString ε] :
    (∀ (o : Option α) (other : Option β), ∃ r, Option.zip o other = .ok r) ∧
    (∀ results : List (Result α ε), ∃ res, Result.combine results = .ok res) := by
  constructor
  · intro o other
    cases o with
    | None => exact ⟨.None, rfl⟩
    | Some v =>
        cases other with
        | Some u => exact ⟨.Some (v, u), rfl⟩
        | None => exact ⟨.None, rfl⟩
  · intro results
    exact Result.combineGo_total results []

end Ferrum
